import Mathlib

/-!
Verification of the rotational-molding scheduling core
(`one.py` / `molds_class_complete.py`).

Numeric values are modelled by `ℚ` (the source manipulates Python numbers
with exact literals such as `0.02` and `0.1`; all claims are about the
algorithmic structure, which is identical over exact arithmetic).
Python's `ZeroDivisionError` is modelled by `Option`: a computation that
divides by zero returns `none`, and callers propagate `none` the way an
uncaught exception propagates.
-/

/-- Python class `Mold` from `one.py` lines 2-13 (identical in `molds_class_complete.py`).
Only the fields the verified methods read are carried. -/
structure Mold where
  mold_id : String
  volume : ℚ
  weight : ℚ
  heating_time : ℚ
  heating_temperature : ℚ
  cooling_time : ℚ
  mounting_time : ℚ
  distance_from_center : ℚ
  available_quantity : ℤ
deriving DecidableEq, Repr

/-- Method `Mold.calculate_torque` (`one.py` 16-18): `weight * distance_from_center`. -/
def Mold.calculate_torque (self : Mold) : ℚ :=
  self.weight * self.distance_from_center

/-- Method `Mold.check_compatibility_with` (`one.py` 31-35, `molds_class_complete.py` 26-29).
Python computes `temp_diff = abs(Δtemperature) / self.heating_temperature` and then
`time_diff = abs(Δtime) / self.heating_time`; either division raises
`ZeroDivisionError` when its divisor is `0`, modelled here as `none`.
Otherwise the result is `temp_diff <= temp_tolerance and time_diff <= time_tolerance`.
The Python defaults are `temp_tolerance=0.02, time_tolerance=0.02`; call sites
that use the defaults pass `0.02` explicitly here. -/
def Mold.check_compatibility_with (self other_mold : Mold)
    (temp_tolerance time_tolerance : ℚ) : Option Bool :=
  if self.heating_temperature = 0 then none
  else if self.heating_time = 0 then none
  else
    let temp_diff := |self.heating_temperature - other_mold.heating_temperature| / self.heating_temperature
    let time_diff := |self.heating_time - other_mold.heating_time| / self.heating_time
    some (decide (temp_diff ≤ temp_tolerance) && decide (time_diff ≤ time_tolerance))

/-- Python class `Spider` from `one.py` lines 49-55. -/
structure Spider where
  spider_type : String
  attachment_sites : ℕ
  volume : ℚ
  weight : ℚ
  attachment_distance : ℚ
deriving DecidableEq, Repr

/-- Python class `BalancingWeight` from `one.py` lines 154-158. -/
structure BalancingWeight where
  weight_options : List ℚ
  position : String
  weight : ℚ
deriving DecidableEq, Repr

/-- Python class `Arm` from `one.py` lines 79-88. -/
structure Arm where
  arm_id : String
  mounting_spots : ℕ
  max_volume : ℚ
  weight_capacity : ℚ
  torque_left_side : ℚ
  torque_right_side : ℚ
  current_molds : List Mold
  current_spiders : List Spider
deriving DecidableEq, Repr

/-- Method `Arm.check_spatial_constraint` (`one.py` 91-95): total mounted volume
(molds plus spiders) is at most `max_volume`. -/
def Arm.check_spatial_constraint (self : Arm) : Bool :=
  let total_volume := (self.current_molds.map Mold.volume).sum
      + (self.current_spiders.map Spider.volume).sum
  decide (total_volume ≤ self.max_volume)

/-- Method `Arm.calculate_balance_torque` (`one.py` 104-109): net torque
`torque_right_side - torque_left_side` plus every mounted mold's torque. -/
def Arm.calculate_balance_torque (self : Arm) : ℚ :=
  self.torque_right_side - self.torque_left_side
    + (self.current_molds.map Mold.calculate_torque).sum

/-- Method `Arm.check_balance_constraint` (`one.py` 98-101); Python default
`tolerance=0.1` is passed explicitly by callers that use the default. -/
def Arm.check_balance_constraint (self : Arm) (tolerance : ℚ) : Bool :=
  decide (|self.calculate_balance_torque| ≤ tolerance)

/-- Method `Arm.add_balancing_weight` (`one.py` 112-117): adds `weight * 1.0` to the
named side's baseline torque; any position other than `'left'`/`'right'`
falls through both branches and changes nothing. -/
def Arm.add_balancing_weight (self : Arm) (weight : ℚ) (position : String) : Arm :=
  if position = "left" then
    { self with torque_left_side := self.torque_left_side + weight * 1 }
  else if position = "right" then
    { self with torque_right_side := self.torque_right_side + weight * 1 }
  else self

/-- The `for weight in balancing_weights` loop of `Arm.check_torque_balance`
(`one.py` 124-128): a weight with `position == 'left'` is added to the local
left copy, any other position is added to the local right copy. -/
def applyWeights (temp_left temp_right : ℚ) : List BalancingWeight → ℚ × ℚ
  | [] => (temp_left, temp_right)
  | w :: ws =>
    if w.position = "left" then applyWeights (temp_left + w.weight) temp_right ws
    else applyWeights temp_left (temp_right + w.weight) ws

/-- Method `Arm.check_torque_balance` (`one.py` 120-129): applies the candidate
weights to local copies `temp_left`/`temp_right` of the side torques and
returns whether `|temp_right - temp_left| <= 0.1`. The method never assigns
to `self`, so the returned arm state is the input state. -/
def Arm.check_torque_balance (self : Arm) (balancing_weights : List BalancingWeight) :
    Bool × Arm :=
  let temp_left := self.torque_left_side
  let temp_right := self.torque_right_side
  let p := applyWeights temp_left temp_right balancing_weights
  (decide (|p.2 - p.1| ≤ (0.1 : ℚ)), self)

/-- The `for mold in self.current_molds[1:]` loop of
`Arm.check_temperature_compatibility` (`one.py` 137-139): each later mold is
checked against the anchor `current_molds[0]` with the default tolerances;
a raised `ZeroDivisionError` (`none`) propagates. -/
def tempLoop (m0 : Mold) : List Mold → Option Bool
  | [] => some true
  | m :: ms =>
    match m0.check_compatibility_with m 0.02 0.02 with
    | none => none
    | some false => some false
    | some true => tempLoop m0 ms

/-- Method `Arm.check_temperature_compatibility` (`one.py` 132-140): vacuously true
for 0 or 1 mounted molds, otherwise every later mold is compared against
`current_molds[0]`. (The Python `base_temp` local is read but never used.) -/
def Arm.check_temperature_compatibility (self : Arm) : Option Bool :=
  match self.current_molds with
  | [] => some true
  | [_] => some true
  | m0 :: rest => tempLoop m0 rest

/-- The `for i in range(len(self.current_molds) - 1)` loop of
`Arm.check_duration_compatibility` (`one.py` 147-149): each adjacent pair
`(molds[i], molds[i+1])` is checked with the default tolerances. -/
def durLoop : List Mold → Option Bool
  | [] => some true
  | [_] => some true
  | m1 :: m2 :: ms =>
    match m1.check_compatibility_with m2 0.02 0.02 with
    | none => none
    | some false => some false
    | some true => durLoop (m2 :: ms)

/-- Method `Arm.check_duration_compatibility` (`one.py` 143-150): vacuously true for
0 or 1 mounted molds, otherwise checks each adjacent pair. -/
def Arm.check_duration_compatibility (self : Arm) : Option Bool :=
  match self.current_molds with
  | [] => some true
  | [_] => some true
  | m1 :: m2 :: ms => durLoop (m1 :: m2 :: ms)

/-- The inner `while weight <= remaining_torque` loop of
`BalancingWeight.minimize_weight_count` (`one.py` 194-196): subtracts `weight`
from the remaining deficit and counts one weight per subtraction, until
`weight` no longer fits. Returns (number of subtractions, final remainder).
For a non-positive `weight` with `weight <= remaining` the source loop never
terminates; this embedding exits instead (the `0 < weight` guard), so
theorems about the greedy are stated for positive weight options only. -/
def innerWhile (weight remaining : ℚ) : ℕ × ℚ :=
  if h : 0 < weight ∧ weight ≤ remaining then
    let p := innerWhile weight (remaining - weight)
    (p.1 + 1, p.2)
  else (0, remaining)
termination_by (Int.floor (remaining / weight)).toNat
decreasing_by
  have hw : 0 < weight := h.1
  have hr : (1 : ℚ) ≤ remaining / weight := (one_le_div hw).mpr h.2
  have hfl : Int.floor ((remaining - weight) / weight) = Int.floor (remaining / weight) - 1 := by
    rw [sub_div, div_self (ne_of_gt hw)]
    exact_mod_cast Int.floor_sub_int (remaining / weight) 1
  have h1 : (1 : ℤ) ≤ Int.floor (remaining / weight) := Int.le_floor.mpr (by exact_mod_cast hr)
  omega

/-- The outer `for weight in sorted(self.weight_options, reverse=True)` loop
of `BalancingWeight.minimize_weight_count` (`one.py` 193-196), threading the
remaining deficit and the running count through the sorted options. The count
is an integer, as in Python. -/
def minimizeLoop : List ℚ → ℚ → ℤ → ℤ
  | [], _, weights_needed => weights_needed
  | w :: ws, remaining_torque, weights_needed =>
    let p := innerWhile w remaining_torque
    minimizeLoop ws p.2 (weights_needed + p.1)

/-- Method `BalancingWeight.minimize_weight_count` (`one.py` 188-197): greedy
coin-change count. Starts from the unsigned deficit `abs(target_torque)` and
scans the weight options in descending sorted order (Python's `sorted(...,
reverse=True)`, modelled by the stable `insertionSort` with `≥`), repeatedly
subtracting each option while it still fits. -/
def BalancingWeight.minimize_weight_count (self : BalancingWeight) (target_torque : ℚ) : ℤ :=
  minimizeLoop (self.weight_options.insertionSort (fun a b => a ≥ b)) |target_torque| 0

/-- Python class `RTXMachine` from `one.py` lines 201-208. The three counters
are natural numbers: they are initialized to `0, 0, 7` and the source only
ever increments them or floors them at `0`, so they never go negative. -/
structure RTXMachine where
  machine_id : String
  machine_count : ℕ
  arms_list : List Arm
  current_cycle : ℕ
  daily_cycles_completed : ℕ
  max_daily_cycles : ℕ
deriving DecidableEq, Repr

/-- The `for arm in self.arms_list` loop of `RTXMachine.validate_arrangement`
(`one.py` 213-222): checks spatial, then balance (default tolerance `0.1`),
then temperature, then duration for each arm in list order, returning the
arm-specific failure message on the first failing check; a
`ZeroDivisionError` raised inside a compatibility check propagates (`none`). -/
def validateLoop : List Arm → Option (Bool × String)
  | [] => some (true, "All constraints satisfied")
  | arm :: rest =>
    if !arm.check_spatial_constraint then
      some (false, "Spatial constraint violated on arm " ++ arm.arm_id)
    else if !arm.check_balance_constraint 0.1 then
      some (false, "Balance constraint violated on arm " ++ arm.arm_id)
    else
      match arm.check_temperature_compatibility with
      | none => none
      | some false => some (false, "Temperature compatibility failed on arm " ++ arm.arm_id)
      | some true =>
        match arm.check_duration_compatibility with
        | none => none
        | some false => some (false, "Duration compatibility failed on arm " ++ arm.arm_id)
        | some true => validateLoop rest

/-- Method `RTXMachine.validate_arrangement` (`one.py` 211-222). -/
def RTXMachine.validate_arrangement (self : RTXMachine) : Option (Bool × String) :=
  validateLoop self.arms_list

/-- Method `RTXMachine.execute_cycle` (`one.py` 225-236): re-runs
`validate_arrangement`; on `(False, message)` returns it with the machine
unchanged; then, if `daily_cycles_completed >= max_daily_cycles`, fails with
the quota message, machine unchanged; otherwise increments `current_cycle`
and `daily_cycles_completed` and reports the new cycle number. Returns the
(result pair, post state); `none` if validation raised. -/
def RTXMachine.execute_cycle (self : RTXMachine) : Option ((Bool × String) × RTXMachine) :=
  match self.validate_arrangement with
  | none => none
  | some (is_valid, message) =>
    if !is_valid then some ((false, message), self)
    else if self.daily_cycles_completed ≥ self.max_daily_cycles then
      some ((false, "Daily cycle limit reached"), self)
    else
      let m := { self with
        current_cycle := self.current_cycle + 1,
        daily_cycles_completed := self.daily_cycles_completed + 1 }
      some ((true, "Cycle " ++ toString m.current_cycle ++ " completed successfully"), m)

/-- Method `RTXMachine.change_arrangement` (`one.py` 239-243): sets
`max_daily_cycles` to `max(0, max_daily_cycles - cycles_lost)` and returns
the message. `setup_time_loss` is a count of lost cycles (`ℕ`); over natural
numbers the truncated subtraction coincides with Python's
`max(0, max_daily_cycles - cycles_lost)` over integers, and `max 0` is kept
to mirror the source text. -/
def RTXMachine.change_arrangement (self : RTXMachine) (setup_time_loss : ℕ) :
    String × RTXMachine :=
  let cycles_lost := setup_time_loss
  ("Arrangement changed, " ++ toString cycles_lost ++ " cycles lost to setup",
   { self with max_daily_cycles := max 0 (self.max_daily_cycles - cycles_lost) })

/-- Lookup in a Python `dict` modelled as an insertion-ordered association
list with unique keys: first binding of the key, if any. -/
def lookupD (d : List (String × ℚ)) (k : String) : Option ℚ :=
  match d with
  | [] => none
  | (k2, v) :: rest => if k2 = k then some v else lookupD rest k

/-- Assignment `d[k] = v` on a Python `dict` modelled as an insertion-ordered
association list with unique keys: replaces the value at the key if present,
otherwise appends the new binding at the end (Python insertion order). -/
def setD (d : List (String × ℚ)) (k : String) (v : ℚ) : List (String × ℚ) :=
  match d with
  | [] => [(k, v)]
  | (k2, v2) :: rest => if k2 = k then (k2, v) :: rest else (k2, v2) :: setD rest k v

/-- Python class `Order` from `one.py` lines 247-253. `mold_requirements` and
`completion_status` are dicts mapping mold id to quantity. -/
structure Order where
  order_id : String
  mold_requirements : List (String × ℚ)
  deadline : ℚ
  completion_status : List (String × ℚ)
  is_complete : Bool
deriving DecidableEq, Repr

/-- Method `Order.update_progress` (`one.py` 256-266): initializes the
tracked total at `0` on first mention of `mold_id`, adds
`quantity_produced`, then, if `mold_id` has a requirement and the new total
reaches it (`>= required`), clamps the total down to the requirement. -/
def Order.update_progress (self : Order) (mold_id : String) (quantity_produced : ℚ) : Order :=
  let cs0 := match lookupD self.completion_status mold_id with
    | none => setD self.completion_status mold_id 0
    | some _ => self.completion_status
  let cur := (lookupD cs0 mold_id).getD 0
  let cs1 := setD cs0 mold_id (cur + quantity_produced)
  let cs2 := match lookupD self.mold_requirements mold_id with
    | none => cs1
    | some required =>
      if required ≤ cur + quantity_produced then setD cs1 mold_id required else cs1
  { self with completion_status := cs2 }

/-- The `for mold_id, required_qty in self.mold_requirements.items()` loop of
`Order.check_completion` (`one.py` 271-275): false at the first requirement
whose tracked quantity (`completion_status.get(mold_id, 0)`) is below it. -/
def checkLoop (completion_status : List (String × ℚ)) : List (String × ℚ) → Bool
  | [] => true
  | (mold_id, required_qty) :: rest =>
    if (lookupD completion_status mold_id).getD 0 < required_qty then false
    else checkLoop completion_status rest

/-- Method `Order.check_completion` (`one.py` 269-278): true iff every
requirement is met. The source assigns `is_complete = False` just before the
early `return False` and `is_complete = True` before the final `return True`,
so the stored flag always equals the returned boolean. -/
def Order.check_completion (self : Order) : Bool × Order :=
  let b := checkLoop self.completion_status self.mold_requirements
  (b, { self with is_complete := b })

/-- Predicate: the arm passes all four checks of
`RTXMachine.validate_arrangement` (spatial, balance at the default `0.1`
tolerance, temperature, duration) without failing and without raising. -/
def armPasses (arm : Arm) : Prop :=
  arm.check_spatial_constraint = true ∧
  arm.check_balance_constraint 0.1 = true ∧
  arm.check_temperature_compatibility = some true ∧
  arm.check_duration_compatibility = some true

instance (arm : Arm) : Decidable (armPasses arm) := by
  unfold armPasses; infer_instance

/-- Invariant of the spec's data model for `Order`: every tracked quantity of
a mold id that has a requirement stays at or below that requirement. -/
def clampInv (o : Order) : Prop :=
  ∀ m req, lookupD o.mold_requirements m = some req →
    ∀ v, lookupD o.completion_status m = some v → v ≤ req

/-! ### Helper lemmas -/

theorem lookupD_setD_self (d : List (String × ℚ)) (k : String) (v : ℚ) :
    lookupD (setD d k v) k = some v := by
  induction d with
  | nil => simp [setD, lookupD]
  | cons p rest ih =>
    by_cases h : p.1 = k
    · simp [setD, lookupD, h]
    · simp [setD, lookupD, h, ih]

theorem lookupD_setD_ne (d : List (String × ℚ)) (a b : String) (v : ℚ) (h : a ≠ b) :
    lookupD (setD d a v) b = lookupD d b := by
  induction d with
  | nil => simp [setD, lookupD, h]
  | cons p rest ih =>
    obtain ⟨pk, pv⟩ := p
    by_cases hp : pk = a
    · subst hp
      simp [setD, lookupD, h]
    · simp [setD, lookupD, hp, ih]

theorem applyWeights_eq (ws : List BalancingWeight) (l r : ℚ) :
    applyWeights l r ws =
      (l + ((ws.filter fun w => decide (w.position = "left")).map BalancingWeight.weight).sum,
       r + ((ws.filter fun w => !decide (w.position = "left")).map BalancingWeight.weight).sum) := by
  induction ws generalizing l r with
  | nil => simp [applyWeights]
  | cons w ws ih =>
    by_cases hp : w.position = "left" <;>
      simp [applyWeights, hp, ih, List.filter_cons] <;> ring

theorem tempLoop_eq_true_iff (m0 : Mold) (ms : List Mold) :
    tempLoop m0 ms = some true ↔
      ∀ m ∈ ms, m0.check_compatibility_with m 0.02 0.02 = some true := by
  induction ms with
  | nil => simp [tempLoop]
  | cons m ms ih =>
    simp only [tempLoop, List.mem_cons]
    cases h : m0.check_compatibility_with m 0.02 0.02 with
    | none => simp [h]
    | some b => cases b <;> simp [h, ih]

theorem durLoop_eq_true_iff (ms : List Mold) :
    durLoop ms = some true ↔
      ms.Chain' (fun x y => x.check_compatibility_with y 0.02 0.02 = some true) := by
  induction ms with
  | nil => simp [durLoop]
  | cons m1 ms ih =>
    cases ms with
    | nil => simp [durLoop]
    | cons m2 ms2 =>
      rw [List.chain'_cons]
      cases h : m1.check_compatibility_with m2 0.02 0.02 with
      | none => simp [durLoop, h]
      | some b => cases b <;> simp [durLoop, h, ← ih]

theorem validateLoop_cons_pass (arm : Arm) (rest : List Arm) (h : armPasses arm) :
    validateLoop (arm :: rest) = validateLoop rest := by
  obtain ⟨h1, h2, h3, h4⟩ := h
  simp [validateLoop, h1, h2, h3, h4]

theorem validateLoop_append_pass (pre rest : List Arm) (h : ∀ b ∈ pre, armPasses b) :
    validateLoop (pre ++ rest) = validateLoop rest := by
  induction pre with
  | nil => rfl
  | cons a pre ih =>
    rw [List.cons_append, validateLoop_cons_pass a _ (h a (by simp)),
      ih (fun b hb => h b (by simp [hb]))]

theorem validateLoop_true_iff (l : List Arm) :
    validateLoop l = some (true, "All constraints satisfied") ↔ ∀ arm ∈ l, armPasses arm := by
  induction l with
  | nil => simp [validateLoop]
  | cons arm rest ih =>
    by_cases h : armPasses arm
    · rw [validateLoop_cons_pass arm rest h]
      simp [h, ih]
    · have hne : validateLoop (arm :: rest) ≠ some (true, "All constraints satisfied") := by
        by_cases h1 : arm.check_spatial_constraint = true
        · by_cases h2 : arm.check_balance_constraint 0.1 = true
          · cases h3 : arm.check_temperature_compatibility with
            | none => simp [validateLoop, h1, h2, h3]
            | some b3 =>
              cases b3
              · simp [validateLoop, h1, h2, h3]
              · cases h4 : arm.check_duration_compatibility with
                | none => simp [validateLoop, h1, h2, h3, h4]
                | some b4 =>
                  cases b4
                  · simp [validateLoop, h1, h2, h3, h4]
                  · exact absurd ⟨h1, h2, h3, h4⟩ h
          · simp [validateLoop, h1, Bool.eq_false_iff.mpr h2, h2]
        · simp [validateLoop, Bool.eq_false_iff.mpr h1, h1]
      simp only [hne, false_iff]
      intro hall
      exact h (hall arm (by simp))

theorem innerWhile_one_aux (n : ℕ) :
    ∀ r : ℚ, 0 ≤ r → Nat.floor r = n → innerWhile 1 r = (n, r - n) := by
  induction n with
  | zero =>
    intro r hr h0
    rw [innerWhile]
    have hlt : r < 1 := by
      by_contra hge
      push_neg at hge
      have := Nat.floor_pos.mpr hge
      omega
    rw [dif_neg (by rintro ⟨-, h1⟩; linarith)]
    simp
  | succ n ih =>
    intro r hr hn
    have h1 : (1 : ℚ) ≤ r := Nat.floor_pos.mp (by omega)
    rw [innerWhile]
    have hc : (0 : ℚ) < 1 ∧ (1 : ℚ) ≤ r := ⟨one_pos, h1⟩
    rw [dif_pos hc]
    have hr1 : (0 : ℚ) ≤ r - 1 := by linarith
    have hfl : Nat.floor (r - 1) = n := by
      have hsub : Nat.floor (r - (1 : ℕ)) = Nat.floor r - 1 := Nat.floor_sub_nat r 1
      rw [Nat.cast_one] at hsub
      omega
    rw [ih (r - 1) hr1 hfl]
    refine Prod.ext rfl ?_
    push_cast
    ring

theorem innerWhile_one (r : ℚ) (hr : 0 ≤ r) :
    innerWhile 1 r = (Nat.floor r, r - Nat.floor r) :=
  innerWhile_one_aux (Nat.floor r) r hr rfl

theorem minimizeLoop_le (ws : List ℚ) :
    ∀ (r : ℚ) (c : ℤ), c ≤ minimizeLoop ws r c := by
  induction ws with
  | nil => intro r c; simp [minimizeLoop]
  | cons w ws ih =>
    intro r c
    have h1 : c ≤ c + ((innerWhile w r).1 : ℤ) :=
      le_add_of_nonneg_right (by exact_mod_cast Nat.zero_le _)
    exact le_trans h1 (ih _ _)

/-! ### Claim theorems -/

/-- C5: `Mold.check_compatibility_with` divides by `self.heating_temperature`
and by `self.heating_time`, so it incurs a division fault (modelled `none`)
exactly when `self.heating_temperature = 0` or `self.heating_time = 0`; under
the precondition that both are nonzero the computation is total: it returns
`some` of the conjunction of the two tolerance tests, so the fault branch is
unreachable. -/
theorem check_compatibility_fault_iff (a b : Mold) (tt tl : ℚ) :
    (a.check_compatibility_with b tt tl = none ↔
      a.heating_temperature = 0 ∨ a.heating_time = 0) ∧
    (a.heating_temperature ≠ 0 → a.heating_time ≠ 0 →
      a.check_compatibility_with b tt tl =
        some (decide (|a.heating_temperature - b.heating_temperature| / a.heating_temperature ≤ tt) &&
              decide (|a.heating_time - b.heating_time| / a.heating_time ≤ tl))) := by
  unfold Mold.check_compatibility_with
  constructor
  · by_cases h1 : a.heating_temperature = 0 <;> by_cases h2 : a.heating_time = 0 <;>
      simp [h1, h2]
  · intro h1 h2
    simp [h1, h2]

/-- Closed instance of `check_compatibility_fault_iff` at the `mold1`/`mold2`
pair of `one.py`'s `main` (temperatures 200 and 203, times 3 and 3.06). -/
theorem check_compatibility_fault_iff_witness :
    Mold.check_compatibility_with ⟨"A1", 10, 5, 3, 200, 2, 1, 1/2, 100⟩
      ⟨"A2", 12, 8, 153/50, 203, 3/2, 1, 2/5, 30⟩ 0.02 0.02 = some true := by
  have h := (check_compatibility_fault_iff ⟨"A1", 10, 5, 3, 200, 2, 1, 1/2, 100⟩
      ⟨"A2", 12, 8, 153/50, 203, 3/2, 1, 2/5, 30⟩ 0.02 0.02).2 (by norm_num) (by norm_num)
  rw [h]
  norm_num [show |(3 : ℚ)/50| = 3/50 from abs_of_nonneg (by norm_num)]

/-- C7: compatibility is tolerance-monotonic. If both divisors of mold `a`
are nonzero and `a.check_compatibility_with b t1 t1` returns `True`, then it
still returns `True` at any larger tolerance `t2 ≥ t1`. -/
theorem check_compatibility_tolerance_mono (a b : Mold) (t1 t2 : ℚ)
    (hht : a.heating_temperature ≠ 0) (hhm : a.heating_time ≠ 0) (h12 : t1 ≤ t2)
    (h : a.check_compatibility_with b t1 t1 = some true) :
    a.check_compatibility_with b t2 t2 = some true := by
  unfold Mold.check_compatibility_with at h ⊢
  rw [if_neg hht, if_neg hhm] at h ⊢
  simp only [Option.some_inj, Bool.and_eq_true, decide_eq_true_eq] at h ⊢
  exact ⟨le_trans h.1 h12, le_trans h.2 h12⟩

/-- Closed instance of `check_compatibility_tolerance_mono`: the
`mold1`/`mold2` pair is compatible at tolerance `0.02`, hence at `1`. -/
theorem check_compatibility_tolerance_mono_witness :
    Mold.check_compatibility_with ⟨"A1", 10, 5, 3, 200, 2, 1, 1/2, 100⟩
      ⟨"A2", 12, 8, 153/50, 203, 3/2, 1, 2/5, 30⟩ 1 1 = some true :=
  check_compatibility_tolerance_mono _ _ 0.02 1 (by norm_num) (by norm_num) (by norm_num)
    (by rw [(check_compatibility_fault_iff _ _ 0.02 0.02).2 (by norm_num) (by norm_num)]
        norm_num [show |(3 : ℚ)/50| = 3/50 from abs_of_nonneg (by norm_num)])

/-- C6: `change_arrangement(setup_time_loss=k)` sets `max_daily_cycles` to
`max(0, max_daily_cycles - k)` (stated over `ℤ`, as Python computes it),
never increases it, and changes no other machine field. -/
theorem change_arrangement_spec (m : RTXMachine) (k : ℕ) :
    (((m.change_arrangement k).2.max_daily_cycles : ℤ) =
      max 0 ((m.max_daily_cycles : ℤ) - (k : ℤ))) ∧
    (m.change_arrangement k).2.max_daily_cycles ≤ m.max_daily_cycles ∧
    (m.change_arrangement k).2.machine_id = m.machine_id ∧
    (m.change_arrangement k).2.machine_count = m.machine_count ∧
    (m.change_arrangement k).2.arms_list = m.arms_list ∧
    (m.change_arrangement k).2.current_cycle = m.current_cycle ∧
    (m.change_arrangement k).2.daily_cycles_completed = m.daily_cycles_completed := by
  have h2 : (m.change_arrangement k).2.max_daily_cycles =
      max 0 (m.max_daily_cycles - k) := rfl
  refine ⟨?_, ?_, rfl, rfl, rfl, rfl, rfl⟩
  · rw [h2]; omega
  · rw [h2]; omega

/-- C9: `check_torque_balance` is a non-mutating what-if check: its boolean
is the `≤ 0.1` test on the side torques adjusted by the candidate weights
(every non-`'left'` weight credited to the right side), and the arm state it
returns is exactly the input arm — in particular the two side torques and
both mounted lists are unchanged. -/
theorem check_torque_balance_spec (a : Arm) (ws : List BalancingWeight) :
    (a.check_torque_balance ws).1 =
      decide (|(a.torque_right_side +
            ((ws.filter fun w => !decide (w.position = "left")).map BalancingWeight.weight).sum) -
          (a.torque_left_side +
            ((ws.filter fun w => decide (w.position = "left")).map BalancingWeight.weight).sum)| ≤
        (0.1 : ℚ)) ∧
    (a.check_torque_balance ws).2 = a ∧
    (a.check_torque_balance ws).2.torque_left_side = a.torque_left_side ∧
    (a.check_torque_balance ws).2.torque_right_side = a.torque_right_side ∧
    (a.check_torque_balance ws).2.current_molds = a.current_molds ∧
    (a.check_torque_balance ws).2.current_spiders = a.current_spiders := by
  refine ⟨?_, rfl, rfl, rfl, rfl, rfl⟩
  simp only [Arm.check_torque_balance, applyWeights_eq]

/-- C10: with a position other than `'left'`/`'right'`,
`add_balancing_weight` falls through both branches and is a silent no-op,
while `check_torque_balance` credits a weight with any such position to the
right side. -/
theorem add_balancing_weight_unknown_position (a : Arm) (w : ℚ) (p : String)
    (h1 : p ≠ "left") (h2 : p ≠ "right") :
    a.add_balancing_weight w p = a ∧
    (∀ bw : BalancingWeight, bw.position = p →
      (a.check_torque_balance [bw]).1 =
        decide (|(a.torque_right_side + bw.weight) - a.torque_left_side| ≤ (0.1 : ℚ))) := by
  constructor
  · unfold Arm.add_balancing_weight
    rw [if_neg h1, if_neg h2]
  · intro bw hbw
    have hp : ¬ bw.position = "left" := by rw [hbw]; exact h1
    simp only [Arm.check_torque_balance, applyWeights_eq]
    simp [hp]

/-- Closed instance of `add_balancing_weight_unknown_position` at position
`"center"`: the arm is unchanged, while the what-if check counts the same
weight on the right side (imbalance 5 > 0.1, hence `false`). -/
theorem add_balancing_weight_unknown_position_witness :
    Arm.add_balancing_weight ⟨"X", 4, 100, 100, 0, 0, [], []⟩ 5 "center" =
      ⟨"X", 4, 100, 100, 0, 0, [], []⟩ ∧
    (Arm.check_torque_balance ⟨"X", 4, 100, 100, 0, 0, [], []⟩ [⟨[], "center", 5⟩]).1 = false := by
  have h := add_balancing_weight_unknown_position ⟨"X", 4, 100, 100, 0, 0, [], []⟩ 5 "center"
    (by decide) (by decide)
  refine ⟨h.1, ?_⟩
  rw [h.2 ⟨[], "center", 5⟩ rfl]
  norm_num

theorem check_compatibility_eval (a b : Mold) (tt tl : ℚ)
    (h1 : a.heating_temperature ≠ 0) (h2 : a.heating_time ≠ 0) :
    a.check_compatibility_with b tt tl =
      some (decide (|a.heating_temperature - b.heating_temperature| / a.heating_temperature ≤ tt) &&
            decide (|a.heating_time - b.heating_time| / a.heating_time ≤ tl)) := by
  unfold Mold.check_compatibility_with
  simp [h1, h2]

/-- C8: with 0 or 1 mounted molds both compatibility checks return `True`;
with the molds `m0 :: rest`, `check_temperature_compatibility` is `True` iff
the anchor `m0` is compatible with every later mold, while
`check_duration_compatibility` is `True` iff every adjacent pair is
compatible; and the two checks are not equivalent in general (an explicit
arm distinguishes them). -/
theorem temperature_duration_compatibility_spec (a : Arm) :
    (a.current_molds.length ≤ 1 →
      a.check_temperature_compatibility = some true ∧
      a.check_duration_compatibility = some true) ∧
    (∀ m0 rest, a.current_molds = m0 :: rest →
      (a.check_temperature_compatibility = some true ↔
        ∀ m ∈ rest, m0.check_compatibility_with m 0.02 0.02 = some true)) ∧
    (a.check_duration_compatibility = some true ↔
      a.current_molds.Chain' (fun x y => x.check_compatibility_with y 0.02 0.02 = some true)) ∧
    (∃ b : Arm, b.check_temperature_compatibility ≠ b.check_duration_compatibility) := by
  refine ⟨?_, ?_, ?_, ?_⟩
  · intro hlen
    rcases hm : a.current_molds with _ | ⟨m0, _ | ⟨m1, ms⟩⟩
    · constructor <;>
        simp [Arm.check_temperature_compatibility, Arm.check_duration_compatibility, hm]
    · constructor <;>
        simp [Arm.check_temperature_compatibility, Arm.check_duration_compatibility, hm]
    · rw [hm] at hlen
      simp at hlen
  · intro m0 rest hm
    rcases rest with _ | ⟨m1, ms⟩
    · simp [Arm.check_temperature_compatibility, hm]
    · rw [show a.check_temperature_compatibility = tempLoop m0 (m1 :: ms) from by
        simp [Arm.check_temperature_compatibility, hm]]
      exact tempLoop_eq_true_iff m0 (m1 :: ms)
  · rcases hm : a.current_molds with _ | ⟨m1, _ | ⟨m2, ms⟩⟩
    · simp [Arm.check_duration_compatibility, hm]
    · simp [Arm.check_duration_compatibility, hm]
    · rw [show a.check_duration_compatibility = durLoop (m1 :: m2 :: ms) from by
        simp [Arm.check_duration_compatibility, hm]]
      exact durLoop_eq_true_iff (m1 :: m2 :: ms)
  · have hAB : Mold.check_compatibility_with ⟨"A", 1, 1, 10, 100, 1, 1, 1, 1⟩
        ⟨"B", 1, 1, 10, 102, 1, 1, 1, 1⟩ 0.02 0.02 = some true := by
      rw [check_compatibility_eval _ _ _ _ (by norm_num) (by norm_num)]
      norm_num [abs_of_nonpos, abs_of_nonneg]
    have hAC : Mold.check_compatibility_with ⟨"A", 1, 1, 10, 100, 1, 1, 1, 1⟩
        ⟨"C", 1, 1, 10, 104, 1, 1, 1, 1⟩ 0.02 0.02 = some false := by
      rw [check_compatibility_eval _ _ _ _ (by norm_num) (by norm_num)]
      norm_num [abs_of_nonpos, abs_of_nonneg]
    have hBC : Mold.check_compatibility_with ⟨"B", 1, 1, 10, 102, 1, 1, 1, 1⟩
        ⟨"C", 1, 1, 10, 104, 1, 1, 1, 1⟩ 0.02 0.02 = some true := by
      rw [check_compatibility_eval _ _ _ _ (by norm_num) (by norm_num)]
      norm_num [abs_of_nonpos, abs_of_nonneg]
    refine ⟨⟨"Y", 4, 100, 100, 0, 0,
      [⟨"A", 1, 1, 10, 100, 1, 1, 1, 1⟩, ⟨"B", 1, 1, 10, 102, 1, 1, 1, 1⟩,
       ⟨"C", 1, 1, 10, 104, 1, 1, 1, 1⟩], []⟩, ?_⟩
    have ht : Arm.check_temperature_compatibility ⟨"Y", 4, 100, 100, 0, 0,
        [⟨"A", 1, 1, 10, 100, 1, 1, 1, 1⟩, ⟨"B", 1, 1, 10, 102, 1, 1, 1, 1⟩,
         ⟨"C", 1, 1, 10, 104, 1, 1, 1, 1⟩], []⟩ = some false := by
      simp [Arm.check_temperature_compatibility, tempLoop, hAB, hAC]
    have hd : Arm.check_duration_compatibility ⟨"Y", 4, 100, 100, 0, 0,
        [⟨"A", 1, 1, 10, 100, 1, 1, 1, 1⟩, ⟨"B", 1, 1, 10, 102, 1, 1, 1, 1⟩,
         ⟨"C", 1, 1, 10, 104, 1, 1, 1, 1⟩], []⟩ = some true := by
      simp [Arm.check_duration_compatibility, durLoop, hAB, hBC]
    rw [ht, hd]
    simp

/-- Closed instance of `temperature_duration_compatibility_spec`: an arm
with no mounted molds passes both checks vacuously. -/
theorem temperature_duration_compatibility_spec_witness :
    Arm.check_temperature_compatibility ⟨"X", 4, 100, 100, 0, 0, [], []⟩ = some true ∧
    Arm.check_duration_compatibility ⟨"X", 4, 100, 100, 0, 0, [], []⟩ = some true :=
  (temperature_duration_compatibility_spec ⟨"X", 4, 100, 100, 0, 0, [], []⟩).1 (by simp)

/-- C2: `validate_arrangement` returns `(True, "All constraints satisfied")`
iff every arm passes all four checks, and for the first arm that fails
(all arms before it passing everything) it returns `(False, message)` where
the message names the first failed check — spatial, then balance, then
temperature, then duration — and that arm's id. -/
theorem validate_arrangement_spec (m : RTXMachine) :
    (m.validate_arrangement = some (true, "All constraints satisfied") ↔
      ∀ arm ∈ m.arms_list, armPasses arm) ∧
    (∀ pre arm post, m.arms_list = pre ++ arm :: post → (∀ b ∈ pre, armPasses b) →
      (arm.check_spatial_constraint = false →
        m.validate_arrangement =
          some (false, "Spatial constraint violated on arm " ++ arm.arm_id)) ∧
      (arm.check_spatial_constraint = true → arm.check_balance_constraint 0.1 = false →
        m.validate_arrangement =
          some (false, "Balance constraint violated on arm " ++ arm.arm_id)) ∧
      (arm.check_spatial_constraint = true → arm.check_balance_constraint 0.1 = true →
        arm.check_temperature_compatibility = some false →
        m.validate_arrangement =
          some (false, "Temperature compatibility failed on arm " ++ arm.arm_id)) ∧
      (arm.check_spatial_constraint = true → arm.check_balance_constraint 0.1 = true →
        arm.check_temperature_compatibility = some true →
        arm.check_duration_compatibility = some false →
        m.validate_arrangement =
          some (false, "Duration compatibility failed on arm " ++ arm.arm_id))) := by
  constructor
  · exact validateLoop_true_iff m.arms_list
  · intro pre arm post hsplit hpre
    unfold RTXMachine.validate_arrangement
    rw [hsplit, validateLoop_append_pass pre _ hpre]
    refine ⟨?_, ?_, ?_, ?_⟩
    · intro h1
      simp [validateLoop, h1]
    · intro h1 h2
      simp [validateLoop, h1, h2]
    · intro h1 h2 h3
      simp [validateLoop, h1, h2, h3]
    · intro h1 h2 h3 h4
      simp [validateLoop, h1, h2, h3, h4]

/-- Closed instance of `validate_arrangement_spec`: a machine whose only arm
has negative `max_volume` fails the spatial check and reports it. -/
theorem validate_arrangement_spec_witness :
    RTXMachine.validate_arrangement ⟨"M", 1, [⟨"X", 4, -1, 100, 0, 0, [], []⟩], 0, 0, 7⟩ =
      some (false, "Spatial constraint violated on arm X") :=
  ((validate_arrangement_spec ⟨"M", 1, [⟨"X", 4, -1, 100, 0, 0, [], []⟩], 0, 0, 7⟩).2
    [] ⟨"X", 4, -1, 100, 0, 0, [], []⟩ [] rfl (by simp)).1
    (by simp [Arm.check_spatial_constraint])

/-- C1: `execute_cycle` first re-runs validation — on a `(False, message)`
validation it returns that pair with the machine unchanged (validation
failure takes priority over quota exhaustion, which is not even consulted);
if validation passes but `daily_cycles_completed ≥ max_daily_cycles` it
returns `(False, "Daily cycle limit reached")` with the machine (hence
`current_cycle`) unchanged; otherwise it increments `current_cycle` and
`daily_cycles_completed` by exactly 1 and reports the new cycle number. -/
theorem execute_cycle_spec (m : RTXMachine) :
    (∀ msg, m.validate_arrangement = some (false, msg) →
      m.execute_cycle = some ((false, msg), m)) ∧
    (∀ msg, m.validate_arrangement = some (true, msg) →
      m.daily_cycles_completed ≥ m.max_daily_cycles →
      m.execute_cycle = some ((false, "Daily cycle limit reached"), m)) ∧
    (∀ msg, m.validate_arrangement = some (true, msg) →
      m.daily_cycles_completed < m.max_daily_cycles →
      m.execute_cycle =
        some ((true, "Cycle " ++ toString (m.current_cycle + 1) ++ " completed successfully"),
          { m with current_cycle := m.current_cycle + 1,
                   daily_cycles_completed := m.daily_cycles_completed + 1 })) := by
  refine ⟨?_, ?_, ?_⟩
  · intro msg hv
    unfold RTXMachine.execute_cycle
    rw [hv]
    simp
  · intro msg hv hq
    unfold RTXMachine.execute_cycle
    rw [hv]
    simp [hq]
  · intro msg hv hq
    unfold RTXMachine.execute_cycle
    rw [hv]
    simp [Nat.not_le.mpr hq]

/-- Closed instance of `execute_cycle_spec`: a machine with no arms
validates trivially and, with quota `0 < 7` used, runs cycle 1. -/
theorem execute_cycle_spec_witness :
    RTXMachine.execute_cycle ⟨"M", 1, [], 0, 0, 7⟩ =
      some ((true, "Cycle 1 completed successfully"), ⟨"M", 1, [], 1, 1, 7⟩) := by
  have h := (execute_cycle_spec ⟨"M", 1, [], 0, 0, 7⟩).2.2 "All constraints satisfied"
    rfl (by norm_num)
  exact h

theorem setD_setD (d : List (String × ℚ)) (k : String) (v1 v2 : ℚ) :
    setD (setD d k v1) k v2 = setD d k v2 := by
  induction d with
  | nil => simp [setD]
  | cons p rest ih =>
    by_cases hp : p.1 = k <;> simp [setD, hp, ih]

theorem update_progress_lookup_self_req (o : Order) (mid : String) (q req : ℚ)
    (hreq : lookupD o.mold_requirements mid = some req) :
    lookupD (o.update_progress mid q).completion_status mid =
      some (if req ≤ (lookupD o.completion_status mid).getD 0 + q then req
            else (lookupD o.completion_status mid).getD 0 + q) := by
  unfold Order.update_progress
  cases hc : lookupD o.completion_status mid with
  | none =>
    by_cases hle : req ≤ q <;>
      simp [hc, hreq, lookupD_setD_self, setD_setD, hle]
  | some v =>
    by_cases hle : req ≤ v + q <;>
      simp [hc, hreq, lookupD_setD_self, setD_setD, hle]

theorem update_progress_lookup_self_noreq (o : Order) (mid : String) (q : ℚ)
    (hreq : lookupD o.mold_requirements mid = none) :
    lookupD (o.update_progress mid q).completion_status mid =
      some ((lookupD o.completion_status mid).getD 0 + q) := by
  unfold Order.update_progress
  cases hc : lookupD o.completion_status mid with
  | none => simp [hc, hreq, lookupD_setD_self, setD_setD]
  | some v => simp [hc, hreq, lookupD_setD_self, setD_setD]

theorem update_progress_lookup_other (o : Order) (mid : String) (q : ℚ)
    (k : String) (hk : k ≠ mid) :
    lookupD (o.update_progress mid q).completion_status k =
      lookupD o.completion_status k := by
  have hk2 : mid ≠ k := Ne.symm hk
  unfold Order.update_progress
  cases hc : lookupD o.completion_status mid with
  | none =>
    cases hr : lookupD o.mold_requirements mid with
    | none =>
      simp [hc, hr, lookupD_setD_self, lookupD_setD_ne _ _ _ _ hk2]
    | some required =>
      by_cases hle : required ≤ q <;>
        simp [hc, hr, lookupD_setD_self, hle, lookupD_setD_ne _ _ _ _ hk2]
  | some v =>
    cases hr : lookupD o.mold_requirements mid with
    | none =>
      simp [hc, hr, lookupD_setD_self, lookupD_setD_ne _ _ _ _ hk2]
    | some required =>
      by_cases hle : required ≤ v + q <;>
        simp [hc, hr, lookupD_setD_self, hle, lookupD_setD_ne _ _ _ _ hk2]

/-- C3: `update_progress` adds `quantity_produced` to the tracked total for
`mold_id` (starting from 0 on first mention — `getD 0`), clamping the result
to the requirement when one exists (`min`), and touches no other mold id's
entry; consequently the invariant that every tracked value of a required
mold id never exceeds its requirement is preserved by every call, so it
holds after any sequence of calls on a fresh order. -/
theorem update_progress_spec (o : Order) (mid : String) (q : ℚ) :
    (∀ req, lookupD o.mold_requirements mid = some req →
      lookupD (o.update_progress mid q).completion_status mid =
        some (min req ((lookupD o.completion_status mid).getD 0 + q))) ∧
    (lookupD o.mold_requirements mid = none →
      lookupD (o.update_progress mid q).completion_status mid =
        some ((lookupD o.completion_status mid).getD 0 + q)) ∧
    (∀ k, k ≠ mid → lookupD (o.update_progress mid q).completion_status k =
      lookupD o.completion_status k) ∧
    (clampInv o → clampInv (o.update_progress mid q)) := by
  refine ⟨?_, update_progress_lookup_self_noreq o mid q,
    fun k hk => update_progress_lookup_other o mid q k hk, ?_⟩
  · intro req hreq
    rw [update_progress_lookup_self_req o mid q req hreq, min_def]
  · intro hinv m2 req2 hreq2 v hv
    by_cases hm2 : m2 = mid
    · subst hm2
      have hreq2' : lookupD o.mold_requirements m2 = some req2 := hreq2
      rw [update_progress_lookup_self_req o m2 q req2 hreq2', Option.some_inj] at hv
      subst hv
      split
      · exact le_refl _
      · rename_i h
        exact le_of_lt (lt_of_not_le h)
    · rw [update_progress_lookup_other o mid q m2 hm2] at hv
      have hreq2' : lookupD o.mold_requirements m2 = some req2 := hreq2
      exact hinv m2 req2 hreq2' v hv

/-- Closed instance of `update_progress_spec`, the spec's scenario: order
with requirement X:5, two updates of 3 each clamp the ledger at 5 and the
order checks complete. -/
theorem update_progress_spec_witness :
    lookupD (Order.update_progress (Order.update_progress
        ⟨"o", [("X", 5)], 0, [], false⟩ "X" 3) "X" 3).completion_status "X" = some 5 ∧
    (Order.update_progress (Order.update_progress
        ⟨"o", [("X", 5)], 0, [], false⟩ "X" 3) "X" 3).check_completion.1 = true := by
  have h1 := (update_progress_spec ⟨"o", [("X", 5)], 0, [], false⟩ "X" 3).1 5 rfl
  simp only [lookupD, Option.getD_none] at h1
  norm_num [min_def] at h1
  have h2 := (update_progress_spec (Order.update_progress
      ⟨"o", [("X", 5)], 0, [], false⟩ "X" 3) "X" 3).1 5 rfl
  rw [h1] at h2
  norm_num [min_def] at h2
  refine ⟨h2, ?_⟩
  simp [Order.check_completion, checkLoop, h2]

/-- C4: `minimize_weight_count` never returns a negative count (the count
starts at 0 and is only incremented), and for the single weight option `1`
it returns the floor of the *unsigned* deficit `|target_torque|` (the source
starts from `abs(target_torque)`). -/
theorem minimize_weight_count_spec (bw : BalancingWeight) (t : ℚ) :
    0 ≤ bw.minimize_weight_count t ∧
    (bw.weight_options = [1] → bw.minimize_weight_count t = Int.floor |t|) := by
  constructor
  · unfold BalancingWeight.minimize_weight_count
    exact minimizeLoop_le _ _ _
  · intro h
    unfold BalancingWeight.minimize_weight_count
    rw [h]
    show minimizeLoop [] (innerWhile 1 |t|).2 (0 + ((innerWhile 1 |t|).1 : ℤ)) = Int.floor |t|
    rw [innerWhile_one |t| (abs_nonneg t)]
    show (0 : ℤ) + ((Nat.floor |t| : ℕ) : ℤ) = Int.floor |t|
    rw [zero_add, Int.natCast_floor_eq_floor (abs_nonneg t)]

/-- The claim's `floor(target_torque)` form fails for a negative target:
with weight option `1` and target `-3/2` the greedy returns `1` (it works on
the unsigned deficit `3/2`), while `floor(-3/2) = -2`. -/
theorem minimize_weight_count_counterexample :
    (⟨[1], "left", 0⟩ : BalancingWeight).minimize_weight_count (-(3/2)) ≠
      Int.floor ((-(3/2) : ℚ)) := by
  have habs : |(-(3/2) : ℚ)| = 3/2 := by
    rw [abs_of_nonpos (by norm_num)]
    norm_num
  have h1 : (⟨[1], "left", 0⟩ : BalancingWeight).minimize_weight_count (-(3/2)) = 1 := by
    unfold BalancingWeight.minimize_weight_count
    show minimizeLoop [] (innerWhile 1 |(-(3/2) : ℚ)|).2
        (0 + ((innerWhile 1 |(-(3/2) : ℚ)|).1 : ℤ)) = 1
    rw [innerWhile_one _ (abs_nonneg _)]
    show (0 : ℤ) + ((Nat.floor |(-(3/2) : ℚ)| : ℕ) : ℤ) = 1
    rw [habs, show Nat.floor ((3 : ℚ)/2) = 1 from by
      rw [Nat.floor_eq_iff (by norm_num)]
      norm_num]
    norm_num
  have h2 : Int.floor ((-(3/2) : ℚ)) = -2 := by
    rw [Int.floor_eq_iff]
    norm_num
  rw [h1, h2]
  norm_num

/-- Closed instance of `minimize_weight_count_spec`: with option `1` and
target `7/2` the greedy uses `⌊7/2⌋ = 3` unit weights, a nonnegative count. -/
theorem minimize_weight_count_spec_witness :
    (0 : ℤ) ≤ (⟨[1], "left", 0⟩ : BalancingWeight).minimize_weight_count (7/2) ∧
    (⟨[1], "left", 0⟩ : BalancingWeight).minimize_weight_count (7/2) = 3 := by
  have h := minimize_weight_count_spec ⟨[1], "left", 0⟩ (7/2)
  refine ⟨h.1, ?_⟩
  rw [h.2 rfl]
  rw [show |(7/2 : ℚ)| = 7/2 from abs_of_nonneg (by norm_num)]
  rw [Int.floor_eq_iff]
  norm_num
